import Mathlib

/-!
Verification development for `src/inject-cordova-index.js` of
gulp-cordova-build-utils.

The JavaScript source manipulates HTML documents and a template file purely
as text, using `String.prototype.replace` with non-global regular
expressions (first-occurrence replacement), gulp-replace with string
patterns (which splits on the pattern and joins with the replacement, i.e.
replaces every occurrence), and `RegExp.prototype.exec` with greedy
patterns.  This file embeds those text operations over `List Char` /
`String` and states the repository's claims about them.
-/

/-- Boolean prefix test on character lists: `isPref pat s` is true exactly
when `pat` is an initial segment of `s`. -/
def isPref : List Char → List Char → Bool
  | [], _ => true
  | _ :: _, [] => false
  | p :: ps, c :: cs => p == c && isPref ps cs

/-- Boolean substring test: some occurrence of `pat` starts at some position
of `s` (for `pat = []` this is always true). -/
def containsSub (pat : List Char) : List Char → Bool
  | [] => isPref pat []
  | c :: cs => isPref pat (c :: cs) || containsSub pat cs

/-- The remainder of `s` after the first (leftmost) occurrence of `pat`,
or `none` when `pat` does not occur.  This models where a JavaScript regex
made of literal characters resumes after its match. -/
def afterFirst (pat : List Char) : List Char → Option (List Char)
  | [] => if isPref pat [] then some [] else none
  | c :: cs =>
    if isPref pat (c :: cs) then some ((c :: cs).drop pat.length)
    else afterFirst pat cs

/-- The part of `s` before the last occurrence of `pat`, or `none` when
`pat` does not occur.  Together with `afterFirst` this models a greedy
capture `A(every char, greedily)B`: the capture runs from just after the
first `A` to just before the last `B`. -/
def beforeLast (pat : List Char) : List Char → Option (List Char)
  | [] => if isPref pat [] then some [] else none
  | c :: cs =>
    match beforeLast pat cs with
    | some r => some (c :: r)
    | none => if isPref pat (c :: cs) then some [] else none

/-- First-occurrence textual replacement, the semantics of JavaScript
`String.replace` with a non-global pattern of literal characters (all the
regex steps of the source use such patterns, except the base-tag one
modelled separately below).  A string with no occurrence is unchanged. -/
def replaceFirstAux (pat rep : List Char) : List Char → List Char
  | [] => []
  | c :: cs =>
    if isPref pat (c :: cs) then rep ++ (c :: cs).drop pat.length
    else c :: replaceFirstAux pat rep cs

/-- Replace every (non-overlapping, leftmost-first) occurrence of
`p :: tl` by `rep`: the semantics of gulp-replace with a string pattern,
which splits the contents on the pattern and joins with the replacement.
The pattern is passed split into head and tail so that it is nonempty. -/
def replaceAllAux (p : Char) (tl rep : List Char) : List Char → List Char
  | [] => []
  | c :: cs =>
    if isPref (p :: tl) (c :: cs) then rep ++ replaceAllAux p tl rep (cs.drop tl.length)
    else c :: replaceAllAux p tl rep cs
termination_by s => s.length
decreasing_by
  all_goals simp [List.length_drop]
  omega

/-- Drop a maximal run of space characters, the backtracking-free reading of
the greedy space-star in the base-tag regex (whatever follows a shorter run
would again be a space, so the maximal run is the only viable one). -/
def dropSpaces : List Char → List Char
  | [] => []
  | c :: cs => if c = ' ' then dropSpaces cs else c :: cs

/-- Try to match the closing part of the base-tag regex (a double quote,
then spaces, then a greater-than sign) at the head of `t`, returning the
remainder after the match. -/
def closeAt : List Char → Option (List Char)
  | [] => none
  | c :: r =>
    if c = '"' then
      match dropSpaces r with
      | [] => none
      | d :: r2 => if d = '>' then some r2 else none
    else none

/-- The characters a JavaScript regex dot refuses to match: the
LineTerminator set of line feed, carriage return, line separator and
paragraph separator. -/
def isLineTerm (c : Char) : Bool :=
  c == '\n' || c == '\r' || c == '\u2028' || c == '\u2029'

/-- Greedy search for the LAST position, reachable without crossing a
line terminator, where `closeAt` succeeds; returns the remainder after
that match.  This is the backtracking behaviour of the greedy dot-star
(the dot matches every character except the LineTerminator set) followed
by the closing part of the base-tag regex. -/
def greedyClose : List Char → Option (List Char)
  | [] => none
  | c :: cs =>
    if isLineTerm c then none
    else
      match greedyClose cs with
      | some r => some r
      | none => closeAt (c :: cs)

/-- The literal opening characters of the base-tag regex. -/
def baseLit : List Char := ['<', 'b', 'a', 's', 'e']

/-- The literal attribute-name characters of the base-tag regex. -/
def hrefLit : List Char := ['h', 'r', 'e', 'f', '=', '"']

/-- Match the whole base-tag regex (line 31 of the source: less-than, base,
spaces, href equals quote, greedy any-but-newline, quote, spaces,
greater-than) at the head of `s`, returning the remainder after the
match. -/
def matchBase (s : List Char) : Option (List Char) :=
  if isPref baseLit s then
    let s1 := dropSpaces (s.drop 5)
    if isPref hrefLit s1 then greedyClose (s1.drop 6) else none
  else none

/-- Replace the first (leftmost) match of the base-tag regex by the empty
string: the document up to the match followed by the remainder after it. -/
def replaceBaseFirst : List Char → List Char
  | [] => []
  | c :: cs =>
    match matchBase (c :: cs) with
    | some r => r
    | none => c :: replaceBaseFirst cs

/-- String-level first-occurrence replacement. -/
def replaceFirstStr (s pat rep : String) : String :=
  ⟨replaceFirstAux pat.data rep.data s.data⟩

/-- String-level replace-every-occurrence (gulp-replace with a string
pattern); for an empty pattern the contents are returned unchanged (no step
of the source uses an empty pattern). -/
def replaceAllStr (s pat rep : String) : String :=
  match pat.data with
  | [] => s
  | p :: tl => ⟨replaceAllAux p tl rep.data s.data⟩

/-- String-level base-tag stripping (line 31 of the source). -/
def replaceBase (doc : String) : String :=
  ⟨replaceBaseFirst doc.data⟩

/-- JavaScript `Array.prototype.join(sep)`: the elements separated by
`sep`, empty for the empty array. -/
def joinSep (sep : String) : List String → String
  | [] => ""
  | [x] => x
  | x :: y :: ys => x ++ sep ++ joinSep sep (y :: ys)

/-- Line 12 of the source: the canonical default document name. -/
def DEFAULT_SOURCE : String := "index.html"

/-- The four extracted template fragments (lines 68 to 73 of the source). -/
structure FragmentSet where
  headStart : String
  headEnd : String
  bodyStart : String
  bodyEnd : String
deriving DecidableEq, Repr

/-- The two template-loading failures thrown by `extractTextToInject`
(lines 51 to 55 and 61 to 67 of the source): the spec names them
`TemplateNotFoundError` and `MalformedTemplateError`.  Each carries the
template path used in the thrown message. -/
inductive TemplateError where
  | templateNotFound (path : String)
  | malformedTemplate (path : String)
deriving DecidableEq, Repr

/-- The message of the thrown `Error`, transcribed from lines 52 to 54 and
62 to 66 of the source. -/
def TemplateError.message : TemplateError → String
  | .templateNotFound path => "File " ++ path ++ " not found !"
  | .malformedTemplate path =>
      "Bad injection file. Required patterns do no match (<head-end>/<body-start>/<body-end> !!!! Please ensure to use a well formatted injextion file (here we use: '"
        ++ path ++ "')"

/-- One delimiter-tag extraction, the semantics of
`/<TAG>(every char, greedily)<\/TAG>/.exec(text)` and taking capture group
one: the engine matches at the first occurrence of the opening tag, the
greedy group then runs to the LAST occurrence of the closing tag; `none`
when the regex does not match.  (A later opening tag sees only a suffix of
the text, so when no closing tag follows the first opening tag the whole
regex fails.) -/
def extractTag (openTag closeTag : List Char) (s : List Char) : Option (List Char) :=
  (afterFirst openTag s).bind (beforeLast closeTag)

/-- Opening delimiter of the headStart fragment. -/
def hsO : List Char := "<head-start>".data
/-- Closing delimiter of the headStart fragment. -/
def hsC : List Char := "</head-start>".data
/-- Opening delimiter of the headEnd fragment. -/
def heO : List Char := "<head-end>".data
/-- Closing delimiter of the headEnd fragment. -/
def heC : List Char := "</head-end>".data
/-- Opening delimiter of the bodyStart fragment. -/
def bsO : List Char := "<body-start>".data
/-- Closing delimiter of the bodyStart fragment. -/
def bsC : List Char := "</body-start>".data
/-- Opening delimiter of the bodyEnd fragment. -/
def beO : List Char := "<body-end>".data
/-- Closing delimiter of the bodyEnd fragment. -/
def beC : List Char := "</body-end>".data

/-- Lines 49 to 74 of the source, `extractTextToInject`.  The file-system
read `String(fs.readFileSync(path))` is represented by `read`: `some text`
when the read yields `text`, `none` when it fails (file missing or
unreadable, where `readFileSync` throws).  Both a failed read and empty
contents abort extraction before any fragment is produced; the spec calls
that failure `TemplateNotFoundError` (its §7 defines the kind as "template
file missing or unreadable"), and for empty contents the source itself
throws the `File ... not found !` error of line 52.  Then the four greedy
regexes run and any failed match throws the malformed-template error of
lines 61 to 67. -/
def extractTextToInject (injectionFilePath : String) (read : Option String) :
    Except TemplateError FragmentSet :=
  match read with
  | none => .error (.templateNotFound injectionFilePath)
  | some text =>
    if text = "" then .error (.templateNotFound injectionFilePath)
    else
      match extractTag hsO hsC text.data, extractTag heO heC text.data,
            extractTag bsO bsC text.data, extractTag beO beC text.data with
      | some a, some b, some c, some d => .ok ⟨⟨a⟩, ⟨b⟩, ⟨c⟩, ⟨d⟩⟩
      | none, _, _, _ => .error (.malformedTemplate injectionFilePath)
      | _, none, _, _ => .error (.malformedTemplate injectionFilePath)
      | _, _, none, _ => .error (.malformedTemplate injectionFilePath)
      | _, _, _, none => .error (.malformedTemplate injectionFilePath)

/-- Line 86 of the source: `source === DEFAULT_SOURCE ? 'file:' : source`. -/
def selfOrSourceToken (source : String) : String :=
  if source = DEFAULT_SOURCE then "file:" else source

/-- Lines 102 to 111 of the source: the eight CSP directives, as the ordered
name-value pairs of the object literal (JavaScript preserves insertion
order of these string keys, so `Object.keys` lists them in declaration
order). -/
def cspRules (source : String) (connectSrc defaultSrc frameSrc : List String) :
    List (String × String) :=
  let cspConnectSrc := "self:" :: selfOrSourceToken source :: connectSrc
  let cspDefaultSrc :=
    "https://www.google-analytics.com" :: "https://www.youtube.com"
      :: "https://s.ytimg.com" :: defaultSrc
  let cspFrameSrc := "https://www.youtube.com" :: frameSrc
  [("default-src",
      "'self' data: gap: https://ssl.gstatic.com 'unsafe-eval' 'unsafe-inline' "
        ++ joinSep " " cspDefaultSrc),
   ("media-src", "data: *"),
   ("img-src", "data: blob: *"),
   ("font-src", "data: 'self' https://fonts.gstatic.com"),
   ("style-src", "'self' 'unsafe-inline' https://fonts.googleapis.com"),
   ("connect-src", joinSep " " cspConnectSrc),
   ("frame-src", joinSep " " cspFrameSrc),
   ("child-src", joinSep " " cspFrameSrc)]

/-- Lines 83 to 117 of the source, `createMetaCsp`: serialize the eight
directives as name-space-value joined by semicolons and wrap them in the
meta tag literal of line 116. -/
def createMetaCsp (source : String) (connectSrc defaultSrc frameSrc : List String) :
    String :=
  let csp := joinSep ";" ((cspRules source connectSrc defaultSrc frameSrc).map
    (fun kv => kv.1 ++ " " ++ kv.2))
  "<meta http-equiv=\"Content-Security-Policy\" content=\"" ++ csp ++ "\"/>"

/-- Lines 42 to 45 of the source, the four fragment-injection replacements
of `injectDeviceReadyDetection`, applied in order to one document (each a
`String.replace` with a non-global regex of literal characters, so a
first-occurrence replacement). -/
def injectDeviceReadyDetection (f : FragmentSet) (doc : String) : String :=
  let d1 := replaceFirstStr doc "<head>" ("<head>" ++ f.headStart)
  let d2 := replaceFirstStr d1 "</head>" (f.headEnd ++ "</head>")
  let d3 := replaceFirstStr d2 "<body>" ("<body>" ++ f.bodyStart)
  let d4 := replaceFirstStr d3 "</body>" (f.bodyEnd ++ "</body>")
  d4

/-- Line 32 of the source: the literal placeholder comment for the cordova
script tag. -/
def cordovaScriptPlc : String := "<!-- inject:cordova-script -->"

/-- Line 32 of the source: the fixed script tag substituted for the
placeholder. -/
def cordovaScriptTag : String := "<script src=\"cordova.js\" async></script>"

/-- Line 33 of the source: the literal placeholder comment for the CSP meta
tag. -/
def cordovaCspPlc : String := "<!-- inject:cordova-csp -->"

/-- Line 32 of the source: gulp-replace with a STRING pattern, which
replaces every occurrence of the placeholder. -/
def scriptStep (doc : String) : String :=
  replaceAllStr doc cordovaScriptPlc cordovaScriptTag

/-- Line 33 of the source: gulp-replace with a string pattern, replacing
every occurrence of the CSP placeholder by the composed meta tag. -/
def cspStep (source : String) (connectSrc defaultSrc frameSrc : List String)
    (doc : String) : String :=
  replaceAllStr doc cordovaCspPlc (createMetaCsp source connectSrc defaultSrc frameSrc)

/-- Lines 28 to 35 of the source: the whole per-document transform applied
to an HTML document flowing through the pipeline, in pipe order: fragment
injection (line 30), base-tag stripping (line 31), script-placeholder
substitution (line 32), CSP-placeholder substitution (line 33).  The filter
and size collaborators do not change document contents. -/
def injectIndexTransform (f : FragmentSet) (source : String)
    (connectSrc defaultSrc frameSrc : List String) (doc : String) : String :=
  cspStep source connectSrc defaultSrc frameSrc
    (scriptStep (replaceBase (injectDeviceReadyDetection f doc)))

/-- The caller's configuration object (lines 19 to 25 of the source): a
JavaScript object whose four properties may each be absent (`none` models
an absent / `undefined` property). -/
structure Config where
  connectSrc : Option (List String) := none
  defaultSrc : Option (List String) := none
  frameSrc : Option (List String) := none
  source : Option String := none
deriving Repr

/-- What can abort construction of the pipeline: the `ReferenceError`
raised by evaluating the undeclared identifier `options` used as the
parameter default on line 25 when `injectIndex` is called with no
argument, or a template error thrown by `extractTextToInject`. -/
inductive BuildError where
  | referenceError
  | template (e : TemplateError)
deriving DecidableEq, Repr

/-- Lines 25 to 36 of the source, `injectIndex`, collapsed to the
construction of the per-document transform.  `opts` is the argument object
(`none` models calling the factory with no argument: the parameter default
`= options` on line 25 then evaluates the undeclared identifier `options`
and throws a `ReferenceError`).  `read` is the file-system read of the
template at `injectionFilePath`, performed by `extractTextToInject` when
the lazypipe instantiates its steps — before any document flows, so a
template error means no document is ever transformed.  Absent `source`
defaults to `DEFAULT_SOURCE` in the destructuring; absent lists reach
`createMetaCsp` as `undefined` and take its `= []` parameter defaults. -/
def injectIndex (opts : Option Config) (injectionFilePath : String)
    (read : Option String) : Except BuildError (String → String) :=
  match opts with
  | none => .error .referenceError
  | some o =>
    match extractTextToInject injectionFilePath read with
    | .error e => .error (.template e)
    | .ok f =>
      .ok (injectIndexTransform f (o.source.getD DEFAULT_SOURCE)
        (o.connectSrc.getD []) (o.defaultSrc.getD []) (o.frameSrc.getD []))

/-- Modelled from the spec: the CSP composer as §4.2 words it, for
comparison with `createMetaCsp`.  The default-src value is the fixed
literal prefix, the three baseline entries and the caller's entries, all
space-joined in order; frame-src and child-src are the youtube baseline
followed by the caller's frameSrc entries; connect-src is `self:`, the
source token, then the caller's entries; four directives are fixed
literals; the eight directives are serialized in declaration order as
name-space-value pairs joined by semicolons (no trailing semicolon) and
wrapped in the Content-Security-Policy meta tag. -/
def createMetaCspSpec (source : String)
    (connectSrc defaultSrc frameSrc : List String) : String :=
  let defaultSrcValue := joinSep " "
    (["'self'", "data:", "gap:", "https://ssl.gstatic.com", "'unsafe-eval'",
      "'unsafe-inline'", "https://www.google-analytics.com",
      "https://www.youtube.com", "https://s.ytimg.com"] ++ defaultSrc)
  let frameSrcValue := joinSep " " ("https://www.youtube.com" :: frameSrc)
  let connectSrcValue :=
    joinSep " " ("self:" :: selfOrSourceToken source :: connectSrc)
  let directives : List (String × String) :=
    [("default-src", defaultSrcValue),
     ("media-src", "data: *"),
     ("img-src", "data: blob: *"),
     ("font-src", "data: 'self' https://fonts.gstatic.com"),
     ("style-src", "'self' 'unsafe-inline' https://fonts.googleapis.com"),
     ("connect-src", connectSrcValue),
     ("frame-src", frameSrcValue),
     ("child-src", frameSrcValue)]
  "<meta http-equiv=\"Content-Security-Policy\" content=\""
    ++ joinSep ";" (directives.map (fun kv => kv.1 ++ " " ++ kv.2)) ++ "\"/>"

theorem isPref_append_self (l s : List Char) : isPref l (l ++ s) = true := by
  induction l with
  | nil => rfl
  | cons p ps ih => simp [isPref, ih]

theorem isPref_take_false (pat u v : List Char)
    (h : isPref (pat.take u.length) u = false) : isPref pat (u ++ v) = false := by
  induction pat generalizing u with
  | nil => simp [isPref] at h
  | cons p ps ih =>
    cases u with
    | nil => simp [isPref] at h
    | cons c cs =>
      simp only [List.length_cons, List.take_succ_cons, isPref] at h
      rcases Bool.and_eq_false_iff.mp h with h1 | h1
      · simp [isPref, h1]
      · have h2 := ih cs h1
        simp [isPref, h2]

theorem isPref_cancel (a b c : List Char) : isPref (a ++ b) (a ++ c) = isPref b c := by
  induction a with
  | nil => rfl
  | cons x xs ih => simp [isPref, ih]

theorem isPref_eq_of_length (a b : List Char) (h : isPref a b = true)
    (hl : b.length ≤ a.length) : a = b := by
  induction a generalizing b with
  | nil => cases b with
    | nil => rfl
    | cons c cs => simp at hl
  | cons p ps ih =>
    cases b with
    | nil => simp [isPref] at h
    | cons c cs =>
      simp only [isPref, Bool.and_eq_true, beq_iff_eq] at h
      simp only [List.length_cons, Nat.add_le_add_iff_right] at hl
      simp [h.1, ih cs h.2 hl]

theorem suffix_cons_cases {t : List Char} {c : Char} {cs : List Char}
    (h : t <:+ c :: cs) : t = c :: cs ∨ t <:+ cs := by
  obtain ⟨w, hw⟩ := h
  cases w with
  | nil => exact Or.inl hw
  | cons d w' =>
    right
    exact ⟨w', by simpa using congrArg List.tail hw⟩

theorem containsSub_of_isPref (pat t : List Char) :
    ∀ u, t <:+ u → isPref pat t = true → containsSub pat u = true := by
  intro u
  induction u with
  | nil =>
    intro ht hp
    have : t = [] := List.eq_nil_of_suffix_nil ht
    subst this
    simpa [containsSub] using hp
  | cons c cs ih =>
    intro ht hp
    rcases suffix_cons_cases ht with h | h
    · subst h
      simp [containsSub, hp]
    · simp [containsSub, ih h hp]

theorem containsSub_iff_exists (pat u : List Char) :
    containsSub pat u = true ↔ ∃ t, t <:+ u ∧ isPref pat t = true := by
  constructor
  · intro h
    induction u with
    | nil => exact ⟨[], List.nil_suffix, by simpa [containsSub] using h⟩
    | cons c cs ih =>
      simp only [containsSub, Bool.or_eq_true] at h
      rcases h with h | h
      · exact ⟨c :: cs, List.suffix_refl _, h⟩
      · obtain ⟨t, ht, hp⟩ := ih h
        exact ⟨t, ht.trans (List.suffix_cons c cs), hp⟩
  · rintro ⟨t, ht, hp⟩
    exact containsSub_of_isPref pat t u ht hp

theorem containsSub_false_of_suffix (pat u t : List Char) (h : t <:+ u)
    (hu : containsSub pat u = false) : containsSub pat t = false := by
  by_contra hc
  have : containsSub pat t = true := by
    cases hx : containsSub pat t
    · exact absurd hx hc
    · rfl
  obtain ⟨t', ht', hp⟩ := (containsSub_iff_exists pat t).mp this
  have := containsSub_of_isPref pat t' u (ht'.trans h) hp
  rw [hu] at this
  exact Bool.false_ne_true this

/-- No occurrence of `pat` in `u ++ v` starts at a position inside `u`:
every nonempty suffix `t` of `u` fails the prefix test against `t ++ v`. -/
def noMatchIn (pat u v : List Char) : Prop :=
  ∀ t, t <:+ u → t ≠ [] → isPref pat (t ++ v) = false

theorem noMatchIn_of_decide (pat u v : List Char)
    (h : (u.tails.all (fun t => t.isEmpty || !(isPref (pat.take t.length) t))) = true) :
    noMatchIn pat u v := by
  intro t ht htne
  have hmem : t ∈ u.tails := (List.mem_tails t u).mpr ht
  have := List.all_eq_true.mp h t hmem
  rcases Bool.or_eq_true_iff.mp this with h1 | h1
  · exact absurd (List.isEmpty_iff.mp h1) htne
  · have h2 : isPref (pat.take t.length) t = false := by simpa using h1
    exact isPref_take_false pat t v h2

theorem forall_ne_of_all_bne (l : List Char) (p : Char)
    (h : l.all (fun c => c != p) = true) : ∀ c ∈ l, c ≠ p := by
  intro c hc
  exact bne_iff_ne.mp (List.all_eq_true.mp h c hc)

theorem noMatchIn_of_all_ne (pat : List Char) (p : Char) (tl u v : List Char)
    (hpat : pat = p :: tl) (hu : ∀ c ∈ u, c ≠ p) : noMatchIn pat u v := by
  intro t ht htne
  cases t with
  | nil => exact absurd rfl htne
  | cons c ts =>
    have hc : c ∈ u := ht.subset (List.mem_cons_self c ts)
    simp [hpat, isPref, beq_eq_false_iff_ne.mpr (Ne.symm (hu c hc))]

theorem noMatchIn_of_containsSub (pat : List Char) (p : Char) (tl u v : List Char)
    (hpat : pat = p :: tl) (hptl : p ∉ tl) (hv : v.head? = some p)
    (hu : containsSub pat u = false) : noMatchIn pat u v := by
  intro t ht htne
  by_cases hc : isPref (pat.take t.length) t = true
  · by_cases hl : pat.length ≤ t.length
    · rw [List.take_of_length_le hl] at hc
      have := containsSub_of_isPref pat t u ht hc
      rw [hu] at this
      exact absurd this Bool.false_ne_true
    · push_neg at hl
      have hlen : (pat.take t.length).length = t.length := by
        rw [List.length_take]
        omega
      have hteq : pat.take t.length = t :=
        isPref_eq_of_length _ t hc (by rw [hlen])
      obtain ⟨n, hn⟩ : ∃ n, t.length = n + 1 := by
        cases t with
        | nil => exact absurd rfl htne
        | cons a as => exact ⟨as.length, rfl⟩
      cases hq : pat.drop t.length with
      | nil =>
        have := List.drop_eq_nil_iff.mp hq
        omega
      | cons q qs =>
        have hqtl : q ∈ tl := by
          have hsub : pat.drop t.length ⊆ tl := by
            rw [hpat, hn, List.drop_succ_cons]
            exact List.drop_subset n tl
          exact hsub (hq ▸ List.mem_cons_self q qs)
        cases hv2 : v with
        | nil => rw [hv2] at hv; simp at hv
        | cons w ws =>
          have hw : w = p := by rw [hv2] at hv; simpa using hv
          have hsplit : pat = t ++ q :: qs := by
            conv_lhs => rw [← List.take_append_drop t.length pat]
            rw [hteq, hq]
          have hqp : q ≠ p := by
            intro h
            exact hptl (h ▸ hqtl)
          rw [hsplit, isPref_cancel, hw]
          simp [isPref, beq_eq_false_iff_ne.mpr hqp]
  · have hc2 : isPref (pat.take t.length) t = false := by
      cases hx : isPref (pat.take t.length) t
      · rfl
      · exact absurd hx hc
    exact isPref_take_false pat t v hc2

theorem noMatchIn_append (pat u1 u2 v : List Char)
    (h1 : noMatchIn pat u1 (u2 ++ v)) (h2 : noMatchIn pat u2 v) :
    noMatchIn pat (u1 ++ u2) v := by
  intro t ht htne
  obtain ⟨w, hw⟩ := ht
  rcases List.append_eq_append_iff.mp hw with ⟨a', ha1, ha2⟩ | ⟨c', hc1, hc2⟩
  · cases a' with
    | nil =>
      rw [List.nil_append] at ha2
      subst ha2
      exact h2 t (List.suffix_refl _) htne
    | cons x xs =>
      have hsa : (x :: xs) <:+ u1 := ⟨w, ha1.symm⟩
      have := h1 (x :: xs) hsa (List.cons_ne_nil x xs)
      rw [ha2, List.append_assoc]
      exact this
  · exact h2 t ⟨c', hc2.symm⟩ htne

theorem noMatchIn_cons_restrict {pat : List Char} {c : Char} {cs v : List Char}
    (h : noMatchIn pat (c :: cs) v) : noMatchIn pat cs v :=
  fun t ht htne => h t (ht.trans (List.suffix_cons c cs)) htne

theorem noMatchIn_head {pat : List Char} {c : Char} {cs v : List Char}
    (h : noMatchIn pat (c :: cs) v) : isPref pat (c :: (cs ++ v)) = false := by
  have := h (c :: cs) (List.suffix_refl _) (List.cons_ne_nil c cs)
  simpa using this

theorem afterFirst_append_of_noMatch (pat u v : List Char) (h : noMatchIn pat u v) :
    afterFirst pat (u ++ v) = afterFirst pat v := by
  induction u with
  | nil => rfl
  | cons c cs ih =>
    rw [List.cons_append]
    simp [afterFirst, noMatchIn_head h, ih (noMatchIn_cons_restrict h)]

theorem containsSub_append_of_noMatch (pat u v : List Char) (h : noMatchIn pat u v) :
    containsSub pat (u ++ v) = containsSub pat v := by
  induction u with
  | nil => rfl
  | cons c cs ih =>
    rw [List.cons_append]
    simp [containsSub, noMatchIn_head h, ih (noMatchIn_cons_restrict h)]

theorem beforeLast_append_of_noMatch (pat u v : List Char) (h : noMatchIn pat u v) :
    beforeLast pat (u ++ v) = (beforeLast pat v).map (fun r => u ++ r) := by
  induction u with
  | nil =>
    rw [List.nil_append]
    cases beforeLast pat v <;> simp
  | cons c cs ih =>
    rw [List.cons_append]
    simp only [beforeLast, ih (noMatchIn_cons_restrict h)]
    cases hbv : beforeLast pat v with
    | none => simp [noMatchIn_head h]
    | some r => simp

theorem replaceAllAux_append_of_noMatch (p : Char) (tl rep u v : List Char)
    (h : noMatchIn (p :: tl) u v) :
    replaceAllAux p tl rep (u ++ v) = u ++ replaceAllAux p tl rep v := by
  induction u with
  | nil => rfl
  | cons c cs ih =>
    rw [List.cons_append]
    rw [replaceAllAux]
    simp [noMatchIn_head h, ih (noMatchIn_cons_restrict h)]

theorem replaceBaseFirst_append_of_noMatch (u v : List Char)
    (h : noMatchIn baseLit u v) :
    replaceBaseFirst (u ++ v) = u ++ replaceBaseFirst v := by
  induction u with
  | nil => rfl
  | cons c cs ih =>
    have hm : matchBase (c :: (cs ++ v)) = none := by
      simp [matchBase, noMatchIn_head h]
    rw [List.cons_append]
    simp [replaceBaseFirst, hm, ih (noMatchIn_cons_restrict h)]

theorem afterFirst_append_self (pat post : List Char) (hpat : pat ≠ []) :
    afterFirst pat (pat ++ post) = some post := by
  cases pat with
  | nil => exact absurd rfl hpat
  | cons p tl =>
    rw [List.cons_append, afterFirst]
    have h1 : isPref (p :: tl) (p :: (tl ++ post)) = true := by
      have := isPref_append_self (p :: tl) post
      simpa using this
    simp only [h1, if_true]
    rw [← List.cons_append, List.drop_left]

theorem afterFirst_eq_none_of_not_contains (pat s : List Char)
    (h : containsSub pat s = false) : afterFirst pat s = none := by
  induction s with
  | nil =>
    simp only [containsSub] at h
    simp [afterFirst, h]
  | cons c cs ih =>
    simp only [containsSub, Bool.or_eq_false_iff] at h
    simp [afterFirst, h.1, ih h.2]

theorem beforeLast_eq_none_of_not_contains (pat s : List Char)
    (h : containsSub pat s = false) : beforeLast pat s = none := by
  induction s with
  | nil =>
    simp only [containsSub] at h
    simp [beforeLast, h]
  | cons c cs ih =>
    simp only [containsSub, Bool.or_eq_false_iff] at h
    simp [beforeLast, h.1, ih h.2]

theorem beforeLast_append_self (pat : List Char) (p : Char) (tl post : List Char)
    (hpat : pat = p :: tl) (hp : p ∉ tl) (hpost : containsSub pat post = false) :
    beforeLast pat (pat ++ post) = some [] := by
  subst hpat
  have htl : noMatchIn (p :: tl) tl post :=
    noMatchIn_of_all_ne _ p tl tl post rfl (fun c hc => fun he => hp (he ▸ hc))
  have hnone : beforeLast (p :: tl) (tl ++ post) = none := by
    rw [beforeLast_append_of_noMatch _ tl post htl,
        beforeLast_eq_none_of_not_contains _ post hpost]
    rfl
  have h1 : isPref (p :: tl) (p :: (tl ++ post)) = true := by
    rw [show p :: (tl ++ post) = (p :: tl) ++ post from (List.cons_append p tl post).symm]
    exact isPref_append_self (p :: tl) post
  rw [List.cons_append, beforeLast, hnone]
  simp [h1]

theorem replaceFirstAux_of_not_contains (pat rep s : List Char)
    (h : containsSub pat s = false) : replaceFirstAux pat rep s = s := by
  induction s with
  | nil => rfl
  | cons c cs ih =>
    simp only [containsSub, Bool.or_eq_false_iff] at h
    simp [replaceFirstAux, h.1, ih h.2]

theorem replaceAllAux_of_not_contains (p : Char) (tl rep s : List Char)
    (h : containsSub (p :: tl) s = false) : replaceAllAux p tl rep s = s := by
  induction s with
  | nil => rw [replaceAllAux]
  | cons c cs ih =>
    simp only [containsSub, Bool.or_eq_false_iff] at h
    rw [replaceAllAux]
    simp [h.1, ih h.2]

theorem replaceAllAux_append_self (p : Char) (tl rep post : List Char) :
    replaceAllAux p tl rep ((p :: tl) ++ post) = rep ++ replaceAllAux p tl rep post := by
  rw [List.cons_append, replaceAllAux]
  have h1 : isPref (p :: tl) (p :: (tl ++ post)) = true := by
    have := isPref_append_self (p :: tl) post
    simpa using this
  simp [h1, List.drop_left]

theorem afterFirst_isSuffix (pat : List Char) :
    ∀ s r, afterFirst pat s = some r → r <:+ s := by
  intro s
  induction s with
  | nil =>
    intro r h
    simp only [afterFirst] at h
    cases hp : isPref pat [] <;> rw [hp] at h <;> simp at h
    exact h ▸ List.suffix_refl []
  | cons c cs ih =>
    intro r h
    simp only [afterFirst] at h
    cases hp : isPref pat (c :: cs) <;> rw [hp] at h <;> simp at h
    · exact (ih r h).trans (List.suffix_cons c cs)
    · exact h ▸ List.drop_suffix pat.length (c :: cs)

theorem containsSub_middle (pat u v : List Char) :
    containsSub pat (u ++ (pat ++ v)) = true :=
  containsSub_of_isPref pat (pat ++ v) (u ++ (pat ++ v)) ⟨u, rfl⟩
    (isPref_append_self pat v)

theorem data_append (s t : String) : (s ++ t).data = s.data ++ t.data := rfl

theorem extractTag_canonical (pat1 pat2 : List Char) (p2 : Char)
    (tl2 pre mid post : List Char)
    (h1 : pat1 ≠ []) (h2 : pat2 = p2 :: tl2) (hp2 : p2 ∉ tl2)
    (hpre : noMatchIn pat1 pre (pat1 ++ (mid ++ (pat2 ++ post))))
    (hmid : noMatchIn pat2 mid (pat2 ++ post))
    (hpost : containsSub pat2 post = false) :
    extractTag pat1 pat2 (pre ++ (pat1 ++ (mid ++ (pat2 ++ post)))) = some mid := by
  unfold extractTag
  rw [afterFirst_append_of_noMatch pat1 pre _ hpre,
      afterFirst_append_self pat1 _ h1, Option.some_bind,
      beforeLast_append_of_noMatch pat2 mid _ hmid,
      beforeLast_append_self pat2 p2 tl2 post h2 hp2 hpost]
  simp

theorem greedyClose_eq_none (v : List Char)
    (hv : ((v.takeWhile (fun c => !(isLineTerm c))).all (fun c => c != '"')) = true) :
    greedyClose v = none := by
  induction v with
  | nil => rfl
  | cons c cs ih =>
    by_cases hc : isLineTerm c = true
    · simp [greedyClose, hc]
    · have hcb : isLineTerm c = false := by
        cases hx : isLineTerm c
        · rfl
        · exact absurd hx hc
      rw [List.takeWhile_cons] at hv
      simp only [hcb, Bool.not_false, if_true, List.all_cons, Bool.and_eq_true] at hv
      have hq : c ≠ '"' := bne_iff_ne.mp hv.1
      rw [greedyClose, ih hv.2]
      simp [hcb, closeAt, hq]

theorem greedyClose_append (h v : List Char)
    (hh : (h.all (fun c => !(isLineTerm c))) = true)
    (hv : ((v.takeWhile (fun c => !(isLineTerm c))).all (fun c => c != '"')) = true) :
    greedyClose (h ++ '"' :: '>' :: v) = some v := by
  induction h with
  | nil =>
    have hgv : greedyClose v = none := greedyClose_eq_none v hv
    rw [List.nil_append, greedyClose]
    rw [show greedyClose ('>' :: v) = none from by
      rw [greedyClose, hgv]
      simp [closeAt, isLineTerm]]
    simp [closeAt, dropSpaces, hgv, isLineTerm]
  | cons c cs ih =>
    simp only [List.all_cons, Bool.and_eq_true] at hh
    have hc : isLineTerm c = false := by
      cases hx : isLineTerm c
      · rfl
      · rw [hx] at hh
        exact absurd hh.1 (by decide)
    rw [List.cons_append, greedyClose, ih hh.2]
    simp [hc]

theorem matchBase_tag (h v : List Char)
    (hh : (h.all (fun c => !(isLineTerm c))) = true)
    (hv : ((v.takeWhile (fun c => !(isLineTerm c))).all (fun c => c != '"')) = true) :
    matchBase ('<' :: 'b' :: 'a' :: 's' :: 'e' :: ' ' :: 'h' :: 'r' :: 'e' :: 'f'
      :: '=' :: '"' :: (h ++ '"' :: '>' :: v)) = some v := by
  have hstep : matchBase ('<' :: 'b' :: 'a' :: 's' :: 'e' :: ' ' :: 'h' :: 'r'
      :: 'e' :: 'f' :: '=' :: '"' :: (h ++ '"' :: '>' :: v))
      = greedyClose (h ++ '"' :: '>' :: v) := rfl
  rw [hstep, greedyClose_append h v hh hv]

theorem replaceBaseFirst_tag (h v : List Char)
    (hh : (h.all (fun c => !(isLineTerm c))) = true)
    (hv : ((v.takeWhile (fun c => !(isLineTerm c))).all (fun c => c != '"')) = true) :
    replaceBaseFirst ('<' :: 'b' :: 'a' :: 's' :: 'e' :: ' ' :: 'h' :: 'r' :: 'e'
      :: 'f' :: '=' :: '"' :: (h ++ '"' :: '>' :: v)) = v := by
  rw [replaceBaseFirst, matchBase_tag h v hh hv]

/-- A sample well-formed template and its fragments, used as concrete
inputs. -/
def sampleTemplate : String :=
  "<head-start>HS</head-start><head-end>HE</head-end><body-start>BS</body-start><body-end>BE</body-end>"

/-- The fragments extracted from `sampleTemplate`. -/
def sampleFragments : FragmentSet := ⟨"HS", "HE", "BS", "BE"⟩

/-- C9: every field of the invocation configuration is individually
optional (a configuration object with all four properties absent succeeds,
defaulting the lists to empty and the source to the canonical default
document name), BUT invoking the factory with no configuration object at
all does not succeed: the parameter default `= options` on line 25 names
an undeclared identifier, so the call throws a `ReferenceError` instead of
defaulting.  The claim is right about the intent and the code is wrong on
the no-argument call (the idiom calls for `= {}`). -/
theorem C9_no_argument_reference_error (path : String) (read : Option String) :
    injectIndex none path read = Except.error BuildError.referenceError ∧
    injectIndex (some ⟨none, none, none, none⟩) "tpl" (some sampleTemplate) =
      Except.ok (injectIndexTransform sampleFragments DEFAULT_SOURCE [] [] []) :=
  ⟨rfl, rfl⟩

/-- C5: when the template read yields no content (a failed read of a
missing file, modelled by `none`, or an empty file), extraction fails with
the template-not-found error carrying the path, and the factory aborts
with that error before producing any document transform: the error is the
value of the construction, so no document is ever processed. -/
theorem C5_template_not_found (path : String) (o : Config) (read : Option String)
    (h : read = none ∨ read = some "") :
    extractTextToInject path read = Except.error (TemplateError.templateNotFound path) ∧
    injectIndex (some o) path read =
      Except.error (BuildError.template (TemplateError.templateNotFound path)) := by
  rcases h with h | h <;> subst h <;> exact ⟨rfl, rfl⟩

/-- C5 witness: the empty-file case at a concrete path. -/
theorem C5_witness :
    extractTextToInject "tpl" (some "") =
      Except.error (TemplateError.templateNotFound "tpl") ∧
    injectIndex (some ⟨none, none, none, none⟩) "tpl" (some "") =
      Except.error (BuildError.template (TemplateError.templateNotFound "tpl")) :=
  C5_template_not_found "tpl" ⟨none, none, none, none⟩ (some "") (Or.inr rfl)

/-- C3 as the claim words it: the connect-src directive value is `self:`,
a token, then the caller entries, where the token equals the literal
`file:` IF AND ONLY IF the source equals the canonical default document
name, and equals the literal source otherwise. -/
def C3_claimStatement : Prop :=
  ∀ (source : String) (connectSrc defaultSrc frameSrc : List String),
    (cspRules source connectSrc defaultSrc frameSrc).get? 5 =
      some ("connect-src",
        joinSep " " ("self:" :: selfOrSourceToken source :: connectSrc)) ∧
    (selfOrSourceToken source = "file:" ↔ source = DEFAULT_SOURCE)

/-- C3 counterexample: for the source string `file:` itself the token is
the literal `file:` although the source is not the canonical default
document name, so the stated equivalence fails in the only-if
direction. -/
theorem C3_counterexample : ¬ C3_claimStatement := by
  intro hcl
  have h := (hcl "file:" [] [] []).2
  have h2 : ("file:" : String) = DEFAULT_SOURCE := h.mp (by decide)
  exact absurd h2 (by decide)

/-- C3 amended: the connect-src directive value is the space-join of
`self:`, the token, then the caller entries in order, where the token is
the literal `file:` WHEN the source equals the canonical default document
name and the literal source otherwise (so for the degenerate source
`file:` the token is also `file:`). -/
theorem C3_amended_connect_src (source : String)
    (connectSrc defaultSrc frameSrc : List String) :
    (cspRules source connectSrc defaultSrc frameSrc).get? 5 =
      some ("connect-src",
        joinSep " " ("self:" :: selfOrSourceToken source :: connectSrc)) ∧
    (source = DEFAULT_SOURCE → selfOrSourceToken source = "file:") ∧
    (source ≠ DEFAULT_SOURCE → selfOrSourceToken source = source) := by
  refine ⟨rfl, ?_, ?_⟩
  · intro h
    simp [selfOrSourceToken, h]
  · intro h
    simp [selfOrSourceToken, h]

/-- C3 witness: both branches of the token at concrete sources. -/
theorem C3_witness :
    selfOrSourceToken "index.html" = "file:" ∧
    selfOrSourceToken "http://localhost:3000" = "http://localhost:3000" :=
  ⟨(C3_amended_connect_src "index.html" [] [] []).2.1 rfl,
   (C3_amended_connect_src "http://localhost:3000" [] [] []).2.2 (by decide)⟩

/-- C2: for every input, the composed CSP meta tag is exactly the
spec-described serialization: eight directives in fixed declaration order,
name-space-value pairs joined by semicolons with no trailing semicolon,
default-src being the fixed literal tokens, the three baseline entries and
the caller entries space-joined in order without deduplication, frame-src
and child-src both being the youtube baseline followed by the caller
entries, wrapped in the Content-Security-Policy meta tag. -/
theorem C2_csp_meta_tag (source : String)
    (connectSrc defaultSrc frameSrc : List String) :
    createMetaCsp source connectSrc defaultSrc frameSrc =
      createMetaCspSpec source connectSrc defaultSrc frameSrc := rfl

/-- C8 counterexample: the fragments are inserted directly against the
anchor tags, so the documented output with spaces between fragment and
anchor is not what the code produces. -/
theorem C8_counterexample :
    injectDeviceReadyDetection ⟨"A", "B", "C", "D"⟩
        "<html><head></head><body></body></html>"
      = "<html><head>AB</head><body>CD</body></html>" ∧
    ("<html><head>AB</head><body>CD</body></html>" : String)
      ≠ "<html><head>A B</head><body>C D</body></html>" :=
  ⟨rfl, by decide⟩

/-- C8 amended: for the document and fragment set of the claim, the four
fragment-injection steps insert each fragment immediately after/before its
tag with no separating space and no duplication:
headStart right after the first head-opening tag, headEnd right before the
first head-closing tag, and likewise for the body fragments. -/
theorem C8_amended_fragment_injection :
    injectDeviceReadyDetection ⟨"A", "B", "C", "D"⟩
        "<html><head></head><body></body></html>"
      = "<html><head>AB</head><body>CD</body></html>" := rfl

theorem extractTag_eq_none_left (o c s : List Char)
    (h : containsSub o s = false) : extractTag o c s = none := by
  unfold extractTag
  rw [afterFirst_eq_none_of_not_contains o s h]
  rfl

theorem extractTag_eq_none_right (o c s : List Char)
    (h : containsSub c s = false) : extractTag o c s = none := by
  unfold extractTag
  cases haf : afterFirst o s with
  | none => rfl
  | some r =>
    rw [Option.some_bind]
    exact beforeLast_eq_none_of_not_contains c r
      (containsSub_false_of_suffix c s r (afterFirst_isSuffix o s r haf) h)

theorem extractTextToInject_malformed (path text : String) (hne : text ≠ "")
    (h : extractTag hsO hsC text.data = none ∨ extractTag heO heC text.data = none
      ∨ extractTag bsO bsC text.data = none ∨ extractTag beO beC text.data = none) :
    extractTextToInject path (some text) =
      Except.error (TemplateError.malformedTemplate path) := by
  simp only [extractTextToInject]
  rw [if_neg hne]
  rcases h with h | h | h | h
  · rw [h]
    cases extractTag heO heC text.data <;> cases extractTag bsO bsC text.data <;>
      cases extractTag beO beC text.data <;> rfl
  · rw [h]
    cases extractTag hsO hsC text.data <;> cases extractTag bsO bsC text.data <;>
      cases extractTag beO beC text.data <;> rfl
  · rw [h]
    cases extractTag hsO hsC text.data <;> cases extractTag heO heC text.data <;>
      cases extractTag beO beC text.data <;> rfl
  · rw [h]
    cases extractTag hsO hsC text.data <;> cases extractTag heO heC text.data <;>
      cases extractTag bsO bsC text.data <;> rfl

/-- C4: for every nonempty template text from which one of the four
delimiter tags (either its opening or its closing form) is absent as a
substring, extraction throws the malformed-template error, whose message
contains the offending template path, and returns no fragment set at all
(the result is the error, so no partial fragment set exists). -/
theorem C4_malformed_template (path text : String) (hne : text ≠ "")
    (habsent : containsSub hsO text.data = false ∨ containsSub hsC text.data = false
      ∨ containsSub heO text.data = false ∨ containsSub heC text.data = false
      ∨ containsSub bsO text.data = false ∨ containsSub bsC text.data = false
      ∨ containsSub beO text.data = false ∨ containsSub beC text.data = false) :
    extractTextToInject path (some text) =
      Except.error (TemplateError.malformedTemplate path) ∧
    containsSub path.data (TemplateError.malformedTemplate path).message.data = true := by
  constructor
  · apply extractTextToInject_malformed path text hne
    rcases habsent with h | h | h | h | h | h | h | h
    · exact Or.inl (extractTag_eq_none_left hsO hsC text.data h)
    · exact Or.inl (extractTag_eq_none_right hsO hsC text.data h)
    · exact Or.inr (Or.inl (extractTag_eq_none_left heO heC text.data h))
    · exact Or.inr (Or.inl (extractTag_eq_none_right heO heC text.data h))
    · exact Or.inr (Or.inr (Or.inl (extractTag_eq_none_left bsO bsC text.data h)))
    · exact Or.inr (Or.inr (Or.inl (extractTag_eq_none_right bsO bsC text.data h)))
    · exact Or.inr (Or.inr (Or.inr (extractTag_eq_none_left beO beC text.data h)))
    · exact Or.inr (Or.inr (Or.inr (extractTag_eq_none_right beO beC text.data h)))
  · show containsSub path.data
      (("Bad injection file. Required patterns do no match (<head-end>/<body-start>/<body-end> !!!! Please ensure to use a well formatted injextion file (here we use: '"
        ++ path ++ "')").data) = true
    rw [data_append, data_append, List.append_assoc]
    exact containsSub_middle path.data _ _

/-- C4 witness: a nonempty template with no tags at all, at a concrete
path. -/
theorem C4_witness :
    extractTextToInject "app/index.html.inject" (some "hello") =
      Except.error (TemplateError.malformedTemplate "app/index.html.inject") ∧
    containsSub "app/index.html.inject".data
      (TemplateError.malformedTemplate "app/index.html.inject").message.data = true :=
  C4_malformed_template "app/index.html.inject" "hello" (by decide)
    (Or.inl (by decide))

/-- C10: only the exact literal head-opening tag serves as the insertion
anchor of the headStart step, and likewise the exact literal closing-head,
opening-body and closing-body tags for the other three steps: a document
without the literal anchor (for example one whose head tag carries
attributes such as a lang attribute) passes the step byte-for-byte
unchanged, and a document without any of the four literals passes the
whole fragment-injection stage unchanged. -/
theorem C10_literal_anchors (f : FragmentSet) (doc : String) :
    (containsSub "<head>".data doc.data = false →
      replaceFirstStr doc "<head>" ("<head>" ++ f.headStart) = doc) ∧
    (containsSub "</head>".data doc.data = false →
      replaceFirstStr doc "</head>" (f.headEnd ++ "</head>") = doc) ∧
    (containsSub "<body>".data doc.data = false →
      replaceFirstStr doc "<body>" ("<body>" ++ f.bodyStart) = doc) ∧
    (containsSub "</body>".data doc.data = false →
      replaceFirstStr doc "</body>" (f.bodyEnd ++ "</body>") = doc) ∧
    (containsSub "<head>".data doc.data = false →
      containsSub "</head>".data doc.data = false →
      containsSub "<body>".data doc.data = false →
      containsSub "</body>".data doc.data = false →
      injectDeviceReadyDetection f doc = doc) := by
  have step : ∀ (pat rep : String), containsSub pat.data doc.data = false →
      replaceFirstStr doc pat rep = doc := by
    intro pat rep h
    unfold replaceFirstStr
    rw [replaceFirstAux_of_not_contains pat.data rep.data doc.data h]
  refine ⟨step _ _, step _ _, step _ _, step _ _, ?_⟩
  intro h1 h2 h3 h4
  show replaceFirstStr (replaceFirstStr (replaceFirstStr
      (replaceFirstStr doc "<head>" ("<head>" ++ f.headStart))
      "</head>" (f.headEnd ++ "</head>"))
      "<body>" ("<body>" ++ f.bodyStart))
      "</body>" (f.bodyEnd ++ "</body>") = doc
  rw [step "<head>" ("<head>" ++ f.headStart) h1,
      step "</head>" (f.headEnd ++ "</head>") h2,
      step "<body>" ("<body>" ++ f.bodyStart) h3,
      step "</body>" (f.bodyEnd ++ "</body>") h4]

/-- C10 witness: a document whose head tag carries a lang attribute and
which contains none of the four literal anchors; every step and the whole
stage leave it unchanged. -/
theorem C10_witness :
    replaceFirstStr "<html><head lang=\"en\">hi" "<head>"
      ("<head>" ++ ((⟨"A", "B", "C", "D"⟩ : FragmentSet)).headStart)
      = "<html><head lang=\"en\">hi" ∧
    injectDeviceReadyDetection ⟨"A", "B", "C", "D"⟩ "<html><head lang=\"en\">hi"
      = "<html><head lang=\"en\">hi" :=
  ⟨(C10_literal_anchors ⟨"A", "B", "C", "D"⟩ "<html><head lang=\"en\">hi").1 (by decide),
   (C10_literal_anchors ⟨"A", "B", "C", "D"⟩ "<html><head lang=\"en\">hi").2.2.2.2
     (by decide) (by decide) (by decide) (by decide)⟩

theorem str_ext (s t : String) (h : s.data = t.data) : s = t := by
  cases s
  cases t
  exact congrArg String.mk h

/-- The script placeholder split off its leading character. -/
def plcTail : List Char := "!-- inject:cordova-script -->".data

/-- The CSP placeholder split off its leading character. -/
def cspTail : List Char := "!-- inject:cordova-csp -->".data

theorem replaceAll_two_blocks (p : Char) (tl rep u v w : List Char)
    (hptl : p ∉ tl)
    (hu : containsSub (p :: tl) u = false)
    (hv : containsSub (p :: tl) v = false)
    (hw : containsSub (p :: tl) w = false) :
    replaceAllAux p tl rep (u ++ ((p :: tl) ++ (v ++ ((p :: tl) ++ w))))
      = u ++ (rep ++ (v ++ (rep ++ w))) := by
  rw [replaceAllAux_append_of_noMatch p tl rep u ((p :: tl) ++ (v ++ ((p :: tl) ++ w)))
      (noMatchIn_of_containsSub _ p tl u ((p :: tl) ++ (v ++ ((p :: tl) ++ w)))
        rfl hptl rfl hu)]
  rw [replaceAllAux_append_self]
  rw [replaceAllAux_append_of_noMatch p tl rep v ((p :: tl) ++ w)
      (noMatchIn_of_containsSub _ p tl v ((p :: tl) ++ w) rfl hptl rfl hv)]
  rw [replaceAllAux_append_self]
  rw [replaceAllAux_of_not_contains p tl rep w hw]

theorem scriptStep_global (u v w : String)
    (hu : containsSub ('<' :: plcTail) u.data = false)
    (hv : containsSub ('<' :: plcTail) v.data = false)
    (hw : containsSub ('<' :: plcTail) w.data = false) :
    scriptStep (u ++ "<!-- inject:cordova-script -->" ++ v
        ++ "<!-- inject:cordova-script -->" ++ w)
      = u ++ "<script src=\"cordova.js\" async></script>" ++ v
        ++ "<script src=\"cordova.js\" async></script>" ++ w := by
  have hmatch : ∀ doc : String, scriptStep doc =
      ⟨replaceAllAux '<' plcTail "<script src=\"cordova.js\" async></script>".data doc.data⟩ :=
    fun doc => rfl
  rw [hmatch]
  apply str_ext
  have harg : ((((u ++ "<!-- inject:cordova-script -->") ++ v)
      ++ "<!-- inject:cordova-script -->") ++ w).data
      = u.data ++ (('<' :: plcTail)
        ++ (v.data ++ (('<' :: plcTail) ++ w.data))) := by
    simp [data_append, List.append_assoc, plcTail]
  rw [harg, replaceAll_two_blocks '<' plcTail _ u.data v.data w.data
    (by decide) hu hv hw]
  simp [data_append, List.append_assoc]

/-- C6 counterexample: a document containing the script placeholder twice
has BOTH occurrences replaced by the whole transform (gulp-replace with a
string pattern is global), not exactly once; under the claim the second
occurrence would have survived unchanged. -/
theorem C6_counterexample :
    injectIndexTransform ⟨"", "", "", ""⟩ "index.html" [] [] []
        "<!-- inject:cordova-script -->x<!-- inject:cordova-script -->"
      = "<script src=\"cordova.js\" async></script>x<script src=\"cordova.js\" async></script>" ∧
    ("<script src=\"cordova.js\" async></script>x<script src=\"cordova.js\" async></script>" : String)
      ≠ "<script src=\"cordova.js\" async></script>x<!-- inject:cordova-script -->" := by
  constructor
  · have h3 : scriptStep "<!-- inject:cordova-script -->x<!-- inject:cordova-script -->"
        = "<script src=\"cordova.js\" async></script>x<script src=\"cordova.js\" async></script>" := by
      have h := scriptStep_global "" "x" "" (by decide) (by decide) (by decide)
      rw [show ("" ++ "<!-- inject:cordova-script -->" ++ "x"
          ++ "<!-- inject:cordova-script -->" ++ "" : String)
          = "<!-- inject:cordova-script -->x<!-- inject:cordova-script -->" from by decide] at h
      rw [show ("" ++ "<script src=\"cordova.js\" async></script>" ++ "x"
          ++ "<script src=\"cordova.js\" async></script>" ++ "" : String)
          = "<script src=\"cordova.js\" async></script>x<script src=\"cordova.js\" async></script>" from by decide] at h
      exact h
    have h4 : cspStep "index.html" [] [] []
        "<script src=\"cordova.js\" async></script>x<script src=\"cordova.js\" async></script>"
        = "<script src=\"cordova.js\" async></script>x<script src=\"cordova.js\" async></script>" := by
      have hmatch : ∀ doc : String, cspStep "index.html" [] [] [] doc =
          ⟨replaceAllAux '<' cspTail (createMetaCsp "index.html" [] [] []).data doc.data⟩ :=
        fun doc => rfl
      rw [hmatch, replaceAllAux_of_not_contains '<' cspTail _ _ (by decide)]
    show cspStep "index.html" [] [] [] (scriptStep (replaceBase
      (injectDeviceReadyDetection ⟨"", "", "", ""⟩
        "<!-- inject:cordova-script -->x<!-- inject:cordova-script -->"))) = _
    rw [show injectDeviceReadyDetection ⟨"", "", "", ""⟩
        "<!-- inject:cordova-script -->x<!-- inject:cordova-script -->"
        = "<!-- inject:cordova-script -->x<!-- inject:cordova-script -->" from rfl]
    rw [show replaceBase "<!-- inject:cordova-script -->x<!-- inject:cordova-script -->"
        = "<!-- inject:cordova-script -->x<!-- inject:cordova-script -->" from rfl]
    rw [h3, h4]
  · decide

/-- C6 amended: the fragment-injection and base-stripping steps (regex
based) are single first-occurrence replacements, but the two
placeholder-comment steps (string based) replace EVERY occurrence: each
occurrence of the script placeholder becomes one fixed script tag, so a
document with the placeholder exactly once has it replaced exactly once,
and a document with several placeholders has them all replaced; a
document with several literal head-opening tags is still only modified at
the first one. -/
theorem C6_amended_script_replacement (u v w : String)
    (hu : containsSub ('<' :: plcTail) u.data = false)
    (hv : containsSub ('<' :: plcTail) v.data = false)
    (hw : containsSub ('<' :: plcTail) w.data = false) :
    scriptStep (u ++ "<!-- inject:cordova-script -->" ++ v
        ++ "<!-- inject:cordova-script -->" ++ w)
      = u ++ "<script src=\"cordova.js\" async></script>" ++ v
        ++ "<script src=\"cordova.js\" async></script>" ++ w ∧
    injectDeviceReadyDetection ⟨"A", "", "", ""⟩ "<head>x<head>"
      = "<head>Ax<head>" :=
  ⟨scriptStep_global u v w hu hv hw, rfl⟩

/-- C6 witness: concrete placeholder-free pieces around two
placeholders. -/
theorem C6_witness :
    scriptStep ("a" ++ "<!-- inject:cordova-script -->" ++ "b"
        ++ "<!-- inject:cordova-script -->" ++ "c")
      = "a" ++ "<script src=\"cordova.js\" async></script>" ++ "b"
        ++ "<script src=\"cordova.js\" async></script>" ++ "c" :=
  (C6_amended_script_replacement "a" "b" "c"
    (by decide) (by decide) (by decide)).1

/-- The character sequence of a canonical base tag with href value `h`,
followed by the rest of the document `v`. -/
def baseTagChars (h v : List Char) : List Char :=
  '<' :: 'b' :: 'a' :: 's' :: 'e' :: ' ' :: 'h' :: 'r' :: 'e' :: 'f' :: '='
    :: '"' :: (h ++ '"' :: '>' :: v)

theorem replaceBaseFirst_tagChars (h v : List Char)
    (hh : (h.all (fun c => !(isLineTerm c))) = true)
    (hv : ((v.takeWhile (fun c => !(isLineTerm c))).all (fun c => c != '"')) = true) :
    replaceBaseFirst (baseTagChars h v) = v :=
  replaceBaseFirst_tag h v hh hv

/-- C7 as the claim words it: the base-stripping step removes exactly the
first base tag and leaves the rest of the document unchanged, for every
document splitting as a clean prefix (no base tag inside it), a canonical
base tag with a well-behaved href value, and an arbitrary rest. -/
def C7_claimStatement : Prop :=
  ∀ (u h v : String),
    containsSub baseLit u.data = false →
    (h.data.all (fun c => c != '"' && !(isLineTerm c))) = true →
    replaceBase (u ++ "<base href=\"" ++ h ++ "\">" ++ v) = u ++ v

/-- C7 counterexample: the greedy any-character group of the base-tag
regex runs to the LAST quote-and-greater-than on the same line, so for
the document consisting of a base tag followed by a meta tag the whole
document is removed: the rest of the document is NOT left unchanged. -/
theorem C7_counterexample : ¬ C7_claimStatement := by
  intro hcl
  have h := hcl "" "foo/" "<meta x=\"y\">" (by decide) (by decide)
  rw [show ("" ++ "<base href=\"" ++ "foo/" ++ "\">" ++ "<meta x=\"y\">" : String)
      = "<base href=\"foo/\"><meta x=\"y\">" from by decide] at h
  rw [show replaceBase "<base href=\"foo/\"><meta x=\"y\">" = "" from rfl] at h
  exact absurd h (by decide)

/-- C7 amended: the step removes the first match of the greedy base-tag
regex, which runs from the first base tag through the LAST quote, spaces
and greater-than sign reachable without crossing a line terminator (the
regex dot matches neither line feed, carriage return nor the Unicode
line/paragraph separators); when the href value contains no line
terminator and no further quote occurs in the rest before its next line
terminator, exactly the base tag is removed and the rest of the document
is unchanged. -/
theorem C7_amended_base_strip (u h v : String)
    (hu : containsSub baseLit u.data = false)
    (hh : (h.data.all (fun c => !(isLineTerm c))) = true)
    (hv : ((v.data.takeWhile (fun c => !(isLineTerm c))).all (fun c => c != '"')) = true) :
    replaceBase (u ++ "<base href=\"" ++ h ++ "\">" ++ v) = u ++ v := by
  apply str_ext
  show replaceBaseFirst ((((u ++ "<base href=\"") ++ h) ++ "\">") ++ v).data
      = (u ++ v).data
  have harg : ((((u ++ "<base href=\"") ++ h) ++ "\">") ++ v).data
      = u.data ++ baseTagChars h.data v.data := by
    simp [data_append, List.append_assoc, baseTagChars]
  rw [harg]
  rw [replaceBaseFirst_append_of_noMatch u.data (baseTagChars h.data v.data)
      (noMatchIn_of_containsSub baseLit '<' ['b', 'a', 's', 'e'] u.data
        (baseTagChars h.data v.data) rfl (by decide) rfl hu)]
  rw [replaceBaseFirst_tagChars h.data v.data hh hv]
  rfl

/-- C7 witness: a prefix containing markup but no base tag, a concrete
href value and a newline-free quote-free rest. -/
theorem C7_witness :
    replaceBase ("<p>" ++ "<base href=\"" ++ "foo/" ++ "\">" ++ "ok")
      = "<p>" ++ "ok" :=
  C7_amended_base_strip "<p>" "foo/" "ok" (by decide) (by decide) (by decide)

/-- C1 counterexample: with the headStart tag pair duplicated, the greedy
regex captures from the FIRST opening tag to the LAST closing tag, so the
captured fragment contains literal tag text instead of the inner text of
the first region (first occurrence does not win). -/
theorem C1_counterexample :
    extractTextToInject "tpl"
        (some "<head-start>A</head-start><head-start>B</head-start><head-end>E</head-end><body-start>S</body-start><body-end>D</body-end>")
      = Except.ok ⟨"A</head-start><head-start>B", "E", "S", "D"⟩ ∧
    ("A</head-start><head-start>B" : String) ≠ "A" :=
  ⟨rfl, by decide⟩

/-- C1 amended: for a template in canonical form (the four tagged regions
in order, each tag pair occurring once because the fragment texts contain
no tag-opening character), extraction returns exactly the inner text of
each tagged region, with no leading or trailing tag text.  In general the
capture of each tag runs from the first opening tag to the LAST closing
tag (greedy), which coincides with the inner text exactly when the pair
occurs once. -/
theorem C1_amended_extraction (path a b c d : String)
    (ha : (a.data.all (fun ch => ch != '<')) = true)
    (hb : (b.data.all (fun ch => ch != '<')) = true)
    (hc : (c.data.all (fun ch => ch != '<')) = true)
    (hd : (d.data.all (fun ch => ch != '<')) = true) :
    extractTextToInject path
        (some ("<head-start>" ++ a ++ "</head-start>" ++ "<head-end>" ++ b
          ++ "</head-end>" ++ "<body-start>" ++ c ++ "</body-start>"
          ++ "<body-end>" ++ d ++ "</body-end>"))
      = Except.ok ⟨a, b, c, d⟩ := by
  have hdata1 : ("<head-start>" ++ a ++ "</head-start>" ++ "<head-end>" ++ b
        ++ "</head-end>" ++ "<body-start>" ++ c ++ "</body-start>"
        ++ "<body-end>" ++ d ++ "</body-end>").data
      = hsO ++ (a.data ++ (hsC ++ (heO ++ (b.data ++ (heC ++ (bsO ++ (c.data
        ++ (bsC ++ (beO ++ (d.data ++ beC)))))))))) := by
    simp [data_append, List.append_assoc, hsO, hsC, heO, heC, bsO, bsC, beO, beC]
  have hne : ("<head-start>" ++ a ++ "</head-start>" ++ "<head-end>" ++ b
      ++ "</head-end>" ++ "<body-start>" ++ c ++ "</body-start>"
      ++ "<body-end>" ++ d ++ "</body-end>") ≠ "" := by
    intro he
    rw [he] at hdata1
    simp [hsO] at hdata1
  have hapost : containsSub hsC (heO ++ (b.data ++ (heC ++ (bsO ++ (c.data
      ++ (bsC ++ (beO ++ (d.data ++ beC)))))))) = false := by
    rw [containsSub_append_of_noMatch hsC heO _ (noMatchIn_of_decide _ _ _ (by decide)),
        containsSub_append_of_noMatch hsC b.data _ (noMatchIn_of_all_ne hsC '<'
          "/head-start>".data b.data _ rfl (forall_ne_of_all_bne b.data '<' hb)),
        containsSub_append_of_noMatch hsC heC _ (noMatchIn_of_decide _ _ _ (by decide)),
        containsSub_append_of_noMatch hsC bsO _ (noMatchIn_of_decide _ _ _ (by decide)),
        containsSub_append_of_noMatch hsC c.data _ (noMatchIn_of_all_ne hsC '<'
          "/head-start>".data c.data _ rfl (forall_ne_of_all_bne c.data '<' hc)),
        containsSub_append_of_noMatch hsC bsC _ (noMatchIn_of_decide _ _ _ (by decide)),
        containsSub_append_of_noMatch hsC beO _ (noMatchIn_of_decide _ _ _ (by decide)),
        containsSub_append_of_noMatch hsC d.data _ (noMatchIn_of_all_ne hsC '<'
          "/head-start>".data d.data _ rfl (forall_ne_of_all_bne d.data '<' hd))]
    decide
  have hbpost : containsSub heC (bsO ++ (c.data ++ (bsC ++ (beO
      ++ (d.data ++ beC))))) = false := by
    rw [containsSub_append_of_noMatch heC bsO _ (noMatchIn_of_decide _ _ _ (by decide)),
        containsSub_append_of_noMatch heC c.data _ (noMatchIn_of_all_ne heC '<'
          "/head-end>".data c.data _ rfl (forall_ne_of_all_bne c.data '<' hc)),
        containsSub_append_of_noMatch heC bsC _ (noMatchIn_of_decide _ _ _ (by decide)),
        containsSub_append_of_noMatch heC beO _ (noMatchIn_of_decide _ _ _ (by decide)),
        containsSub_append_of_noMatch heC d.data _ (noMatchIn_of_all_ne heC '<'
          "/head-end>".data d.data _ rfl (forall_ne_of_all_bne d.data '<' hd))]
    decide
  have hcpost : containsSub bsC (beO ++ (d.data ++ beC)) = false := by
    rw [containsSub_append_of_noMatch bsC beO _ (noMatchIn_of_decide _ _ _ (by decide)),
        containsSub_append_of_noMatch bsC d.data _ (noMatchIn_of_all_ne bsC '<'
          "/body-start>".data d.data _ rfl (forall_ne_of_all_bne d.data '<' hd))]
    decide
  have e1 : extractTag hsO hsC (hsO ++ (a.data ++ (hsC ++ (heO ++ (b.data
      ++ (heC ++ (bsO ++ (c.data ++ (bsC ++ (beO ++ (d.data ++ beC)))))))))))
      = some a.data := by
    exact extractTag_canonical hsO hsC '<' "/head-start>".data [] a.data
      (heO ++ (b.data ++ (heC ++ (bsO ++ (c.data ++ (bsC ++ (beO ++ (d.data ++ beC))))))))
      (by decide) rfl (by decide)
      (fun t ht htne => absurd (List.eq_nil_of_suffix_nil ht) htne)
      (noMatchIn_of_all_ne hsC '<' "/head-start>".data a.data _ rfl
        (forall_ne_of_all_bne a.data '<' ha))
      hapost
  have e2 : extractTag heO heC (hsO ++ (a.data ++ (hsC ++ (heO ++ (b.data
      ++ (heC ++ (bsO ++ (c.data ++ (bsC ++ (beO ++ (d.data ++ beC)))))))))))
      = some b.data := by
    rw [show hsO ++ (a.data ++ (hsC ++ (heO ++ (b.data ++ (heC ++ (bsO
        ++ (c.data ++ (bsC ++ (beO ++ (d.data ++ beC))))))))))
        = (hsO ++ (a.data ++ hsC)) ++ (heO ++ (b.data ++ (heC ++ (bsO
          ++ (c.data ++ (bsC ++ (beO ++ (d.data ++ beC))))))))
        from by simp [List.append_assoc]]
    exact extractTag_canonical heO heC '<' "/head-end>".data
      (hsO ++ (a.data ++ hsC)) b.data
      (bsO ++ (c.data ++ (bsC ++ (beO ++ (d.data ++ beC)))))
      (by decide) rfl (by decide)
      (noMatchIn_append heO hsO (a.data ++ hsC) _
        (noMatchIn_of_decide _ _ _ (by decide))
        (noMatchIn_append heO a.data hsC _
          (noMatchIn_of_all_ne heO '<' "head-end>".data a.data _ rfl
            (forall_ne_of_all_bne a.data '<' ha))
          (noMatchIn_of_decide _ _ _ (by decide))))
      (noMatchIn_of_all_ne heC '<' "/head-end>".data b.data _ rfl
        (forall_ne_of_all_bne b.data '<' hb))
      hbpost
  have e3 : extractTag bsO bsC (hsO ++ (a.data ++ (hsC ++ (heO ++ (b.data
      ++ (heC ++ (bsO ++ (c.data ++ (bsC ++ (beO ++ (d.data ++ beC)))))))))))
      = some c.data := by
    rw [show hsO ++ (a.data ++ (hsC ++ (heO ++ (b.data ++ (heC ++ (bsO
        ++ (c.data ++ (bsC ++ (beO ++ (d.data ++ beC))))))))))
        = (hsO ++ (a.data ++ (hsC ++ (heO ++ (b.data ++ heC)))))
          ++ (bsO ++ (c.data ++ (bsC ++ (beO ++ (d.data ++ beC)))))
        from by simp [List.append_assoc]]
    exact extractTag_canonical bsO bsC '<' "/body-start>".data
      (hsO ++ (a.data ++ (hsC ++ (heO ++ (b.data ++ heC))))) c.data
      (beO ++ (d.data ++ beC))
      (by decide) rfl (by decide)
      (noMatchIn_append bsO hsO (a.data ++ (hsC ++ (heO ++ (b.data ++ heC)))) _
        (noMatchIn_of_decide _ _ _ (by decide))
        (noMatchIn_append bsO a.data (hsC ++ (heO ++ (b.data ++ heC))) _
          (noMatchIn_of_all_ne bsO '<' "body-start>".data a.data _ rfl
            (forall_ne_of_all_bne a.data '<' ha))
          (noMatchIn_append bsO hsC (heO ++ (b.data ++ heC)) _
            (noMatchIn_of_decide _ _ _ (by decide))
            (noMatchIn_append bsO heO (b.data ++ heC) _
              (noMatchIn_of_decide _ _ _ (by decide))
              (noMatchIn_append bsO b.data heC _
                (noMatchIn_of_all_ne bsO '<' "body-start>".data b.data _ rfl
                  (forall_ne_of_all_bne b.data '<' hb))
                (noMatchIn_of_decide _ _ _ (by decide)))))))
      (noMatchIn_of_all_ne bsC '<' "/body-start>".data c.data _ rfl
        (forall_ne_of_all_bne c.data '<' hc))
      hcpost
  have e4 : extractTag beO beC (hsO ++ (a.data ++ (hsC ++ (heO ++ (b.data
      ++ (heC ++ (bsO ++ (c.data ++ (bsC ++ (beO ++ (d.data ++ beC)))))))))))
      = some d.data := by
    rw [show hsO ++ (a.data ++ (hsC ++ (heO ++ (b.data ++ (heC ++ (bsO
        ++ (c.data ++ (bsC ++ (beO ++ (d.data ++ beC))))))))))
        = (hsO ++ (a.data ++ (hsC ++ (heO ++ (b.data ++ (heC ++ (bsO
          ++ (c.data ++ bsC)))))))) ++ (beO ++ (d.data ++ (beC ++ [])))
        from by simp [List.append_assoc]]
    exact extractTag_canonical beO beC '<' "/body-end>".data
      (hsO ++ (a.data ++ (hsC ++ (heO ++ (b.data ++ (heC ++ (bsO
        ++ (c.data ++ bsC)))))))) d.data []
      (by decide) rfl (by decide)
      (noMatchIn_append beO hsO (a.data ++ (hsC ++ (heO ++ (b.data ++ (heC
          ++ (bsO ++ (c.data ++ bsC))))))) _
        (noMatchIn_of_decide _ _ _ (by decide))
        (noMatchIn_append beO a.data (hsC ++ (heO ++ (b.data ++ (heC
            ++ (bsO ++ (c.data ++ bsC)))))) _
          (noMatchIn_of_all_ne beO '<' "body-end>".data a.data _ rfl
            (forall_ne_of_all_bne a.data '<' ha))
          (noMatchIn_append beO hsC (heO ++ (b.data ++ (heC ++ (bsO
              ++ (c.data ++ bsC))))) _
            (noMatchIn_of_decide _ _ _ (by decide))
            (noMatchIn_append beO heO (b.data ++ (heC ++ (bsO
                ++ (c.data ++ bsC)))) _
              (noMatchIn_of_decide _ _ _ (by decide))
              (noMatchIn_append beO b.data (heC ++ (bsO ++ (c.data ++ bsC))) _
                (noMatchIn_of_all_ne beO '<' "body-end>".data b.data _ rfl
                  (forall_ne_of_all_bne b.data '<' hb))
                (noMatchIn_append beO heC (bsO ++ (c.data ++ bsC)) _
                  (noMatchIn_of_decide _ _ _ (by decide))
                  (noMatchIn_append beO bsO (c.data ++ bsC) _
                    (noMatchIn_of_decide _ _ _ (by decide))
                    (noMatchIn_append beO c.data bsC _
                      (noMatchIn_of_all_ne beO '<' "body-end>".data c.data _ rfl
                        (forall_ne_of_all_bne c.data '<' hc))
                      (noMatchIn_of_decide _ _ _ (by decide))))))))))
      (noMatchIn_of_all_ne beC '<' "/body-end>".data d.data _ rfl
        (forall_ne_of_all_bne d.data '<' hd))
      (by decide)
  simp only [extractTextToInject]
  rw [if_neg hne, hdata1, e1, e2, e3, e4]

/-- C1 witness: concrete tag-free fragments in a canonical template. -/
theorem C1_witness :
    extractTextToInject "tpl"
        (some ("<head-start>" ++ "HS" ++ "</head-start>" ++ "<head-end>" ++ "HE"
          ++ "</head-end>" ++ "<body-start>" ++ "BS" ++ "</body-start>"
          ++ "<body-end>" ++ "BE" ++ "</body-end>"))
      = Except.ok ⟨"HS", "HE", "BS", "BE"⟩ :=
  C1_amended_extraction "tpl" "HS" "HE" "BS" "BE"
    (by decide) (by decide) (by decide) (by decide)
